import Mathlib

/-! # A verification development for `gf`

Shallow embedding of `g/os/gbinlog/gbinlog.go` (the segmented binary log), of
the partitions of `g/container/gdrh/gdrh.go` and of the admin actions of
`g/net/ghttp/ghttp_server_admin.go`.

Conventions of the embedding:

* Go's `int` and `int64` are 64-bit two's-complement integers.  A machine
  integer is represented by the mathematical integer it denotes; every
  operation that can leave the range is followed by an explicit wrap
  (`int64`, `int32`, `int8`).
* A byte is a natural number below 256; a byte slice is a `List Byte`
  (a `nil` slice and an empty slice are both `[]` unless a function tells them
  apart, in which case it returns an `Option`).
* The code is embedded sequentially: mutexes and atomically read counters are
  plain state.
* A Go function that can fail returns a `Result`: a value, an `error`, or a
  run-time panic.  A loop that may not terminate takes a fuel argument and
  returns `none` when the fuel runs out.
-/

namespace gbinlog

/-! ## Machine integers -/

/-- Wrap to a signed 64-bit integer (Go `int64`, and `int` on 64-bit targets). -/
def int64 (x : Int) : Int := (x + 2 ^ 63) % 2 ^ 64 - 2 ^ 63

/-- Wrap to a signed 32-bit integer (Go `int32`). -/
def int32 (x : Int) : Int := (x + 2 ^ 31) % 2 ^ 32 - 2 ^ 31

/-- Wrap to a signed 8-bit integer (Go `int8`). -/
def int8 (x : Int) : Int := (x + 2 ^ 7) % 2 ^ 8 - 2 ^ 7

/-- The 64-bit pattern of a signed 64-bit integer, as a natural number. -/
def bits64 (x : Int) : Nat := (x % 2 ^ 64).toNat

/-- Go `a | b` on `int64`. -/
def or64 (a b : Int) : Int := int64 ((bits64 a ||| bits64 b : Nat) : Int)

/-- Go `a & b` on `int64`. -/
def and64 (a b : Int) : Int := int64 ((bits64 a &&& bits64 b : Nat) : Int)

/-- Go `a << k` on `int64`: the bits shifted out are lost. -/
def shl64 (a : Int) (k : Nat) : Int := int64 (a * 2 ^ k)

/-- Go `a >> k` on `int64`: an arithmetic shift, rounding towards minus infinity. -/
def sar64 (a : Int) (k : Nat) : Int := a / 2 ^ k

/-- Largest value of Go's `int`. -/
def maxInt : Int := 2 ^ 63 - 1

/-! ## Constants -/

/-- Default capacity of one binlog file (1GB). -/
def gDEFAULT_MAX_CAP : Int := 1024 * 1024 * 1024

/-- Default size of the block read by `GetById`. -/
def gDEFAULT_BLOCK_SIZE : Int := 1024 * 4

/-! ## Bytes and the fixed-width encoders -/

/-- A byte; the encoders below only produce values below 256. -/
abbrev Byte := Nat

/-- The `n` low-order bytes of `u`, least significant byte first. -/
def leBytes : Nat → Nat → List Byte
  | 0, _ => []
  | n + 1, u => u % 256 :: leBytes n (u / 256)

/-- Value of a little-endian byte string. -/
def leValue : List Byte → Nat
  | [] => 0
  | b :: bs => b % 256 + 256 * leValue bs

/-- Modelled from the spec: `gbinary.EncodeInt8` (package `gbinary` is not among
the sources); the spec's fixed-width encoder for the 1-byte field. -/
def EncodeInt8 (x : Int) : List Byte := leBytes 1 (x % 2 ^ 8).toNat

/-- Modelled from the spec: `gbinary.EncodeInt32` (package `gbinary` is not among
the sources); the spec's fixed-width little-endian encoder for the 4-byte field. -/
def EncodeInt32 (x : Int) : List Byte := leBytes 4 (x % 2 ^ 32).toNat

/-- Modelled from the spec: `gbinary.EncodeInt64` (package `gbinary` is not among
the sources); the spec's fixed-width little-endian encoder for the 8-byte field. -/
def EncodeInt64 (x : Int) : List Byte := leBytes 8 (x % 2 ^ 64).toNat

/-- Modelled from the spec: `gbinary.DecodeToInt32` (package `gbinary` is not
among the sources); the spec's fixed-width little-endian decoder for the 4-byte
field, read as a signed 32-bit integer. -/
def DecodeToInt32 (b : List Byte) : Int := int32 (leValue (b.take 4))

/-- Go `s[lo:hi]` on a slice whose capacity is its length (`lo ≤ hi ≤ len s`). -/
def slice (s : List Byte) (lo hi : Nat) : List Byte := (s.drop lo).take (hi - lo)

/-- Go `copy(dst[i:], src)` for `i ≤ len dst`: overwrites
`min (len dst - i) (len src)` bytes of `dst` from position `i`; the length of
`dst` does not change. -/
def copyAt (dst : List Byte) (i : Nat) (src : List Byte) : List Byte :=
  dst.take i ++ src.take (dst.length - i) ++ dst.drop (i + min src.length (dst.length - i))

/-! ## Address codec -/

/-- The method `Log.idByOffset`: `offset << 16 | int64(log.num)`. -/
def idByOffset (num : Int) (offset : Int) : Int :=
  or64 (shl64 offset 16) (int64 num)

/-- First line of `GetById`: `num := int(id & 0xffff)`. -/
def GetById.num (id : Int) : Int := int64 (and64 id 0xffff)

/-- Second line of `GetById`: `offset := id >> 16`. -/
def GetById.offset (id : Int) : Int := sar64 id 16

/-! ## Frames -/

/-- The buffer built by `AppendWithStatus` (lines 152-159) for payload `data`,
status `status` and clock reading `now` (`gtime.Nanosecond()`). -/
def AppendWithStatus.buffer (data : List Byte) (status : Int) (now : Int) : List Byte :=
  let length : Int := data.length
  let txidbuf := EncodeInt64 now
  let buffer := List.replicate (data.length + 21) 0
  let buffer := copyAt buffer 0 (EncodeInt8 (int8 status))
  let buffer := copyAt buffer 1 (EncodeInt32 (int32 length))
  let buffer := copyAt buffer 5 txidbuf
  let buffer := copyAt buffer 13 data
  copyAt buffer (13 + data.length) txidbuf

/-! ## Results -/

/-- The errors the package creates or passes on. -/
inductive Err where
  /-- An error of the file layer (`File`, `Seek`, `WriteAt`, `Sync`), passed on as it is. -/
  | io (msg : String)
  /-- Created by `New`: path is not writable for saving binlog. -/
  | notWritable
  /-- Created by `GetById`: invalid log id: id. -/
  | invalidLogId (id : Int)
  /-- Created by `GetById`: data not found for id: id. -/
  | dataNotFound (id : Int)
  deriving DecidableEq, Repr

/-- Outcome of a call that returns: a value (with a `nil` error), an error, or a
run-time panic. -/
inductive Result (α : Type) where
  | ok (value : α)
  | error (err : Err)
  | panic
  deriving DecidableEq, Repr

/-! ## Data model -/

/-- The struct `LogItem`; `log` holds the number of the `Log` pointed to, `none`
for a `nil` pointer; a `nil` `Buffer` is `[]`. -/
structure LogItem where
  log : Option Int
  Id : Int
  Status : Int
  Index : Int
  Buffer : List Byte
  deriving DecidableEq, Repr

/-- The composite literal `LogItem{}` that `GetById` returns: every field has its
zero value. -/
def LogItem.zero : LogItem := { log := none, Id := 0, Status := 0, Index := 0, Buffer := [] }

/-- The files `path/name.<num>` of one binlog directory, by number; a file that
does not exist has no entry. -/
abbrev Disk := List (Int × List Byte)

/-- Content of the file numbered `num` (empty when the file does not exist). -/
def Disk.file (disk : Disk) (num : Int) : List Byte := (disk.lookup num).getD []

/-- Replace the content of the file numbered `num`. -/
def Disk.store (disk : Disk) (num : Int) (content : List Byte) : Disk := (num, content) :: disk

/-- The struct `BinLog`.  A `*Log` is represented by its number: `logs` maps the
number of every `Log` object created so far to its `size` counter, and `head`
and `tail` are the numbers of the objects pointed to.  (`path`, the mutex and
`popitem` play no part in what is modelled.) -/
structure BinLog where
  cap : Int
  name : List Char
  head : Int
  tail : Int
  logs : List (Int × Int)
  deriving DecidableEq, Repr

/-- Value of `log.size` for the `Log` object numbered `num`. -/
def BinLog.size (blog : BinLog) (num : Int) : Int := (blog.logs.lookup num).getD 0

/-- Effect of `log.size.Set(size)` on the `Log` object numbered `num`. -/
def BinLog.setSize (blog : BinLog) (num : Int) (size : Int) : BinLog :=
  { blog with logs := (num, size) :: blog.logs }

/-- The method `BinLog.getLog`: the cached `Log` object numbered `num` if there
is one, otherwise a new one whose size is the size of its file
(`gfile.Size`, 0 for a missing file).  The returned pointer is `num`. -/
def getLog (blog : BinLog) (disk : Disk) (num : Int) : BinLog :=
  match blog.logs.lookup num with
  | some _ => blog
  | none => { blog with logs := (num, ((disk.file num).length : Int)) :: blog.logs }

/-- What the file layer does during one call: for each operation that can fail,
`none` when it succeeds or the error it returns; a failing `WriteAt` also tells
how many bytes it wrote before failing. -/
structure Faults where
  file : Option String
  seek : Option String
  write : Option (Nat × String)
  sync : Option String
  deriving DecidableEq, Repr

/-- The file layer with every operation succeeding. -/
def Faults.none : Faults := { file := .none, seek := .none, write := .none, sync := .none }

/-- The call `WriteAt(buffer, start)` on a file: bytes from `start` on are
overwritten, the file grows as needed (a gap is filled with zero bytes). -/
def writeAt (file : List Byte) (start : Nat) (buffer : List Byte) : List Byte :=
  file.take start ++ List.replicate (start - file.length) 0 ++ buffer
    ++ file.drop (start + buffer.length)

/-! ## Appending -/

/-- The method `Log.append` on the `Log` object numbered `num`. -/
def Log.append (blog : BinLog) (disk : Disk) (io : Faults) (num : Int)
    (buffer : List Byte) (sync : List Bool) : Result Int × BinLog × Disk :=
  match io.file with
  | some e => (.error (.io e), blog, disk)
  | .none =>
    match io.seek with
    | some e => (.error (.io e), blog, disk)
    | .none =>
      -- start, err := pf.File().Seek(0, 2)
      let start := (disk.file num).length
      match io.write with
      | some (n, e) =>
        (.error (.io e), blog, disk.store num (writeAt (disk.file num) start (buffer.take n)))
      | .none =>
        let disk := disk.store num (writeAt (disk.file num) start buffer)
        match sync.head?, io.sync with
        | some true, some e => (.error (.io e), blog, disk)
        | _, _ =>
          let size := int64 ((start : Int) + (buffer.length : Int))
          (.ok (idByOffset num (int64 size)), blog.setSize num size, disk)

/-- The rotation step of `AppendWithStatus` (lines 146-150): when the size of the
tail has reached the capacity, `blog.tail = blog.getLog(blog.tail.num + 1)`. -/
def AppendWithStatus.rotate (blog : BinLog) (disk : Disk) : BinLog :=
  if blog.size blog.tail ≥ blog.cap then
    let num := int64 (blog.tail + 1)
    { getLog blog disk num with tail := num }
  else blog

/-- The method `BinLog.AppendWithStatus`; `now` is the reading of
`gtime.Nanosecond()`. -/
def AppendWithStatus (blog : BinLog) (disk : Disk) (io : Faults) (now : Int)
    (data : List Byte) (status : Int) (sync : List Bool) : Result Int × BinLog × Disk :=
  let blog := AppendWithStatus.rotate blog disk
  Log.append blog disk io blog.tail (AppendWithStatus.buffer data status now) sync

/-- The method `BinLog.Append`. -/
def Append (blog : BinLog) (disk : Disk) (io : Faults) (now : Int)
    (data : List Byte) (sync : List Bool) : Result Int × BinLog × Disk :=
  AppendWithStatus blog disk io now data 0 sync

/-! ## Reading -/

/-- A positioned read, `gfile.GetBinContentByTwoOffsets(file, a, b)`: `none` is a
`nil` result. -/
abbrev Reader := List Byte → Int → Int → Option (List Byte)

/-- Modelled from the spec: `gfile.GetBinContentByTwoOffsets` (package `gfile` is
not among the sources); the spec's `readBlock(offset, maxLength)`, a positioned
read that may return fewer bytes than requested at end-of-file.  The result is
`nil` when no byte is read. -/
def GetBinContentByTwoOffsets : Reader := fun file offset maxLength =>
  if offset < 0 ∨ maxLength ≤ 0 then none
  else
    let bytes := (file.drop offset.toNat).take maxLength.toNat
    if bytes.isEmpty then none else some bytes

/-- Body of the inner loop of `GetById` (lines 182-197); `none` is its `break`.
The slice expression `buffer[1 : 5]` panics unless the buffer holds 5 bytes
(the capacity of a buffer is taken to be its length). -/
def GetById.item (read : Reader) (file : List Byte) (offset id : Int) :
    Option (Result LogItem) :=
  match read file offset gDEFAULT_BLOCK_SIZE with
  | none => none
  | some buffer =>
    if buffer.length < 5 then some .panic
    else
      let length := DecodeToInt32 (slice buffer 1 5)
      let itemsize := int64 (int32 (length + 21))
      if itemsize > buffer.length then
        let more := read file (int64 (offset + buffer.length)) (int64 (itemsize - buffer.length))
        let buffer := buffer ++ more.getD []
        if itemsize ≠ buffer.length then some (.error (.invalidLogId id))
        else some (.ok LogItem.zero)
      else some (.ok LogItem.zero)

/-- The outer loop of `GetById` (lines 171-201) with its final return; `none`
when the fuel runs out. -/
def GetById.loop (read : Reader) (disk : Disk) (io : Faults) (id num offset : Int) :
    Nat → BinLog → Option (Result LogItem) × BinLog
  | 0, blog => (none, blog)
  | fuel + 1, blog =>
    let blog := getLog blog disk num
    if blog.size num = 0 then (some (.error (.dataNotFound id)), blog)
    else
      match io.file with
      | some e => (some (.error (.io e)), blog)
      | .none =>
        match GetById.item read (disk.file num) offset id with
        | some r => (some r, blog)
        | none => GetById.loop read disk io id num offset fuel blog

/-- The method `BinLog.GetById`, reading through `read`. -/
def GetById (read : Reader) (blog : BinLog) (disk : Disk) (io : Faults) (id : Int)
    (fuel : Nat) : Option (Result LogItem) × BinLog :=
  GetById.loop read disk io id (GetById.num id) (GetById.offset id) fuel blog

/-! ## Opening a store -/

/-- Go `strings.Split(s, ".")`. -/
def Split : List Char → List (List Char)
  | [] => [[]]
  | c :: cs =>
    if c = '.' then [] :: Split cs
    else
      match Split cs with
      | [] => [[c]]
      | h :: t => (c :: h) :: t

/-- Value of a string of decimal digits, `none` if a character is not a digit. -/
def digitsValue : List Char → Nat → Option Nat
  | [], acc => some acc
  | c :: cs, acc =>
    if '0' ≤ c ∧ c ≤ '9' then digitsValue cs (acc * 10 + (c.toNat - 48)) else none

/-- Go `strconv.Atoi` on a 64-bit target: an optional sign followed by one or
more decimal digits, the value in the range of `int`; `none` is an error. -/
def Atoi (s : List Char) : Option Int :=
  match s with
  | [] => none
  | c :: cs =>
    let neg := c = '-'
    let digits := if c = '-' ∨ c = '+' then cs else s
    match digits with
    | [] => none
    | _ :: _ =>
      match digitsValue digits 0 with
      | none => none
      | some v =>
        if neg then (if (v : Int) ≤ 2 ^ 63 then some (-(v : Int)) else none)
        else (if (v : Int) ≤ maxInt then some (v : Int) else none)

/-- The discovery loop of `New` (lines 75-84) over the names `files`, from the
current value of `max`; `array[1]` panics when `array` has one element. -/
def New.scan (name : List Char) : List (List Char) → Int → Result Int
  | [], max => .ok max
  | file :: files, max =>
    let array := Split file
    if array.head? = some name then
      match array.tail.head? with
      | none => .panic
      | some s =>
        match Atoi s with
        | some num => New.scan name files (if num > max then num else max)
        | none => New.scan name files max
    else New.scan name files max

/-- The function `New`; `writable` is the outcome of the directory check
(`gfile.IsWritable`, after the directory is created when missing) and `files`
is `gfile.ScanDir(path)`. -/
def New (writable : Bool) (files : List (List Char)) (disk : Disk) (name : List Char)
    (cap : List Int) : Result BinLog :=
  if !writable then .error .notWritable
  else
    let min : Int := 0
    match New.scan name files 0 with
    | .panic => .panic
    | .error e => .error e
    | .ok max =>
      let blog : BinLog :=
        { cap := gDEFAULT_MAX_CAP, name := name, head := 0, tail := 0, logs := [] }
      let blog := match cap.head? with
        | some c => { blog with cap := c }
        | none => blog
      let blog := { getLog blog disk min with head := min }
      let blog := { blog with tail := blog.head }
      if max ≠ min then { getLog blog disk max with tail := max } |> .ok else .ok blog

end gbinlog

/-! # The partitions of `g/container/gdrh/gdrh.go`

An index into a slice is a Go `int`; it is bounded by the length of the slice,
so the arithmetic on indices does not leave the range of `int` and is not
wrapped.  An index out of range is a run-time panic. -/

namespace gdrh

/-- Outcome of a call that returns: a value, or a run-time panic. -/
inductive Outcome (α : Type) where
  | value (a : α)
  | panic
  deriving DecidableEq, Repr

/-- The struct `item` (its `part` pointer is never set in the source). -/
structure item where
  key : Int
  value : Int
  deriving DecidableEq, Repr

/-- The struct `part`: the items, documented as sorted ascending for the binary
search. -/
structure part where
  items : List item
  deriving DecidableEq, Repr

/-- The struct `table` (its `m` pointer is only read by an empty `if`). -/
structure table where
  deep : Int
  size : Int
  parts : List (Option part)
  deriving DecidableEq, Repr

/-- Go `s[i]` for an `int` index: `none` when the index is out of range. -/
def index {α : Type} (s : List α) (i : Int) : Option α :=
  if i < 0 then none else s.get? i.toNat

/-- The loop of `part.search` (lines 104-116) from the current values of `min`,
`max`, `mid` and `cmp`; `none` when the fuel runs out. -/
def part.search.loop (items : List item) (key : Int) :
    Nat → Int → Int → Int → Int → Option (Outcome (Int × Int))
  | 0, min, max, mid, cmp => if min < max then none else some (.value (mid, cmp))
  | fuel + 1, min, max, mid, cmp =>
    if min < max then
      let mid := (min + max).tdiv 2
      match index items mid with
      | none => some .panic
      | some it =>
        if key < it.key then part.search.loop items key fuel min (mid - 1) mid (-1)
        else if key > it.key then part.search.loop items key fuel (mid + 1) max mid 1
        else some (.value (mid, 0))
    else some (.value (mid, cmp))

/-- The method `part.search`.  Every pass through the loop shrinks `max - min`,
which starts at `len - 1`, so `len` passes are enough (`part_search_returns`). -/
def part.search (p : part) (key : Int) : Option (Outcome (Int × Int)) :=
  part.search.loop p.items key p.items.length 0 ((p.items.length : Int) - 1) 0 (-2)

/-- The method `part.save`. -/
def part.save (p : part) (it : item) (idx : Int) (cmp : Int) : Outcome part :=
  -- if cmp == 0 { p.items[index] = item }
  let stored : Option (List item) :=
    if cmp = 0 then
      (if idx < 0 ∨ (p.items.length : Int) ≤ idx then none else some (p.items.set idx.toNat it))
    else some p.items
  match stored with
  | none => .panic
  | some items =>
    let len : Int := items.length
    let pos : Int :=
      if cmp = -1 then idx
      else if idx + 1 ≥ len then len else idx + 1
    -- p.items[pos:] and p.items[0:pos]
    if pos < 0 ∨ len < pos then .panic
    else .value ⟨items.take pos.toNat ++ [it] ++ items.drop pos.toNat⟩

/-- The `else` branch of `table.set` (lines 62-72) on the partition found:
`part.search`, then the value update in place or `part.save`; the `if` on the
degree that follows has an empty body. -/
def table.set.update (p : part) (key value : Int) : Option (Outcome part) :=
  match p.search key with
  | none => none
  | some .panic => some .panic
  | some (.value (idx, cmp)) =>
    if cmp = 0 then
      match index p.items idx with
      | none => some .panic
      | some it => some (.value ⟨p.items.set idx.toNat { it with value := value }⟩)
    else some (p.save ⟨key, value⟩ idx cmp)

/-- The method `table.set`.  `key % len(t.parts)` panics for an empty `parts` and
is negative, hence out of range, for a negative key; a partition created for a
`nil` entry is only held by the local variable. -/
def table.set (t : table) (key value : Int) : Option (Outcome table) :=
  if t.parts.length = 0 then some .panic
  else
    let i := key.tmod (t.parts.length : Int)
    match index t.parts i with
    | none => some .panic
    | some none => some (.value t)
    | some (some p) =>
      match table.set.update p key value with
      | none => none
      | some .panic => some .panic
      | some (.value q) => some (.value { t with parts := t.parts.set i.toNat (some q) })

/-- Strictly ascending keys: what the comment on `part.items` asks for. -/
def sortedKeys : List item → Bool
  | [] => true
  | [_] => true
  | a :: b :: rest => decide (a.key < b.key) && sortedKeys (b :: rest)

end gdrh

/-! # The admin actions of `g/net/ghttp/ghttp_server_admin.go`

The process-level variables are a `Process`; an `error` result is an
`Option AdminError`, `none` for `nil`.  The calls are embedded in the order in
which `serverActionLocker` lets them run. -/

namespace ghttp

/-- Limit, in milliseconds, on the interval between admin actions. -/
def gADMIN_ACTION_INTERVAL_LIMIT : Int := 2000

/-- Process status: no admin action under way. -/
def gADMIN_ACTION_NONE : Int := 0

/-- Process status: restarting. -/
def gADMIN_ACTION_RESTARTING : Int := 1

/-- Process status: shutting down. -/
def gADMIN_ACTION_SHUTINGDOWN : Int := 2

/-- The errors of the admin actions. -/
inductive AdminError where
  /-- Created by `checkActionStatus`: server is restarting. -/
  | restarting
  /-- Created by `checkActionStatus`: server is shutting down. -/
  | shuttingDown
  /-- Created by `checkActionFrequence`: too frequent action, please retry in `retry` ms. -/
  | tooFrequent (retry : Int)
  /-- The error of `forkReloadProcess`, passed on as it is. -/
  | fork (msg : String)
  deriving DecidableEq, Repr

/-- What an admin action set going: the restart of `restartWebServers` or the
shutdown of `shutdownWebServers`, at once (by signal) or after one second. -/
inductive Started where
  | restart (atOnce : Bool)
  | shutdown (atOnce : Bool)
  deriving DecidableEq, Repr

/-- The process-level variables `serverActionLastTime` and `serverProcessStatus`,
with the record of what the admin actions set going. -/
structure Process where
  serverActionLastTime : Int
  serverProcessStatus : Int
  started : List Started
  deriving DecidableEq, Repr

/-- What the environment gives one admin call: the two readings of
`gtime.Millisecond()`, whether `runtime.GOOS` is windows, and the error of
`forkReloadProcess` if it fails. -/
structure Env where
  now1 : Int
  now2 : Int
  windows : Bool
  fork : Option String
  deriving DecidableEq, Repr

/-- The method `Server.checkActionFrequence`; `now1` and `now2` are its two
readings of `gtime.Millisecond()`. -/
def checkActionFrequence (p : Process) (now1 now2 : Int) : Option AdminError × Process :=
  let interval := gbinlog.int64 (now1 - p.serverActionLastTime)
  if interval < gADMIN_ACTION_INTERVAL_LIMIT then
    (some (.tooFrequent (gbinlog.int64 (gADMIN_ACTION_INTERVAL_LIMIT - interval))), p)
  else (none, { p with serverActionLastTime := now2 })

/-- The method `Server.checkActionStatus`. -/
def checkActionStatus (p : Process) : Option AdminError :=
  let status := p.serverProcessStatus
  if status > 0 then
    if status = gADMIN_ACTION_RESTARTING then some .restarting
    else if status = gADMIN_ACTION_SHUTINGDOWN then some .shuttingDown
    else none
  else none

/-- The function `restartWebServers`. -/
def restartWebServers (p : Process) (signal : String) (windows : Bool)
    (fork : Option String) : Option AdminError × Process :=
  let p := { p with serverProcessStatus := gADMIN_ACTION_RESTARTING }
  if windows then
    (none, { p with started := p.started ++ [.restart (signal.length > 0)] })
  else
    match fork with
    | some e => (some (.fork e), { p with serverProcessStatus := gADMIN_ACTION_NONE })
    | none => (none, { p with started := p.started ++ [.restart true] })

/-- The function `shutdownWebServers`. -/
def shutdownWebServers (p : Process) (signal : String) : Process :=
  { p with
    serverProcessStatus := gADMIN_ACTION_SHUTINGDOWN
    started := p.started ++ [.shutdown (signal.length > 0)] }

/-- The method `Server.Restart`. -/
def Server.Restart (p : Process) (env : Env) : Option AdminError × Process :=
  match checkActionStatus p with
  | some err => (some err, p)
  | none =>
    match checkActionFrequence p env.now1 env.now2 with
    | (some err, p) => (some err, p)
    | (none, p) => restartWebServers p "" env.windows env.fork

/-- The method `Server.Shutdown`. -/
def Server.Shutdown (p : Process) (env : Env) : Option AdminError × Process :=
  match checkActionStatus p with
  | some err => (some err, p)
  | none =>
    match checkActionFrequence p env.now1 env.now2 with
    | (some err, p) => (some err, p)
    | (none, p) => (none, shutdownWebServers p "")

/-- One of the two admin calls. -/
inductive AdminCall where
  | Restart
  | Shutdown
  deriving DecidableEq, Repr

/-- A sequence of admin calls, each with its environment, one after the other:
the errors returned and the final state. -/
def Server.calls : Process → List (AdminCall × Env) → List (Option AdminError) × Process
  | p, [] => ([], p)
  | p, (.Restart, env) :: rest =>
    let r := Server.Restart p env
    let rs := Server.calls r.2 rest
    (r.1 :: rs.1, rs.2)
  | p, (.Shutdown, env) :: rest =>
    let r := Server.Shutdown p env
    let rs := Server.calls r.2 rest
    (r.1 :: rs.1, rs.2)

end ghttp

/-! # Theorems -/

namespace gbinlog

/-! ## Machine arithmetic of the address codec -/

theorem int64_of_range {x : Int} (h1 : -2 ^ 63 ≤ x) (h2 : x < 2 ^ 63) : int64 x = x := by
  unfold int64; omega

theorem bits64_of_nonneg {x : Int} (h1 : 0 ≤ x) (h2 : x < 2 ^ 64) : bits64 x = x.toNat := by
  unfold bits64; congr 1; omega

theorem idByOffset_eq {n o : Int} (hn : 0 ≤ n ∧ n ≤ 65535) (ho : 0 ≤ o ∧ o < 2 ^ 47) :
    idByOffset n o = o * 65536 + n := by
  obtain ⟨a, rfl⟩ := Int.eq_ofNat_of_zero_le hn.1
  obtain ⟨b, rfl⟩ := Int.eq_ofNat_of_zero_le ho.1
  have ha : a < 2 ^ 16 := by omega
  have hb : b < 2 ^ 47 := by omega
  have e0 : int64 ((b : Int) * 2 ^ 16) = (b : Int) * 2 ^ 16 := int64_of_range (by omega) (by omega)
  have e0a : int64 (a : Int) = (a : Int) := int64_of_range (by omega) (by omega)
  have e1 : bits64 ((b : Int) * 2 ^ 16) = 2 ^ 16 * b := by
    rw [bits64_of_nonneg (by omega) (by omega)]; omega
  have e2 : bits64 (a : Int) = a := by
    rw [bits64_of_nonneg (by omega) (by omega)]; omega
  unfold idByOffset or64 shl64
  rw [e0, e0a, e1, e2, ← Nat.mul_add_lt_is_or ha b]
  rw [int64_of_range (by omega) (by omega)]
  push_cast; ring

theorem decode_idByOffset {n o : Int} (hn : 0 ≤ n ∧ n ≤ 65535) (ho : 0 ≤ o ∧ o < 2 ^ 47) :
    GetById.num (idByOffset n o) = n ∧ GetById.offset (idByOffset n o) = o := by
  rw [idByOffset_eq hn ho]
  obtain ⟨a, rfl⟩ := Int.eq_ofNat_of_zero_le hn.1
  obtain ⟨b, rfl⟩ := Int.eq_ofNat_of_zero_le ho.1
  have ha : a < 2 ^ 16 := by omega
  have hb : b < 2 ^ 47 := by omega
  constructor
  · have e1 : bits64 ((b : Int) * 65536 + a) = b * 65536 + a := by
      rw [bits64_of_nonneg (by omega) (by omega)]; omega
    have e2 : bits64 (0xffff : Int) = 2 ^ 16 - 1 := by decide
    have e3 : (b * 65536 + a) % 2 ^ 16 = a := by omega
    unfold GetById.num and64
    rw [e1, e2, Nat.and_pow_two_sub_one_eq_mod, e3]
    have e4 : int64 (a : Int) = (a : Int) := int64_of_range (by omega) (by omega)
    rw [e4, e4]
  · unfold GetById.offset sar64
    omega

/-! ## The frame built by `AppendWithStatus` -/

theorem leBytes_length (n u : Nat) : (leBytes n u).length = n := by
  induction n generalizing u with
  | zero => rfl
  | succ n ih => simp [leBytes, ih]

theorem EncodeInt8_length (x : Int) : (EncodeInt8 x).length = 1 := leBytes_length _ _
theorem EncodeInt32_length (x : Int) : (EncodeInt32 x).length = 4 := leBytes_length _ _
theorem EncodeInt64_length (x : Int) : (EncodeInt64 x).length = 8 := leBytes_length _ _

theorem copyAt_zeros (a src : List Byte) (i k : Nat) (hi : i = a.length) (h : src.length ≤ k) :
    copyAt (a ++ List.replicate k 0) i src = (a ++ src) ++ List.replicate (k - src.length) 0 := by
  subst hi
  unfold copyAt
  have h1 : (a ++ List.replicate k 0).length - a.length = k := by simp
  have h2 : min src.length k = src.length := by omega
  rw [h1, h2, List.take_of_length_le h, List.take_left, List.drop_append, List.drop_replicate]

theorem buffer_eq (data : List Byte) (status now : Int) :
    AppendWithStatus.buffer data status now =
      EncodeInt8 (int8 status) ++ EncodeInt32 (int32 data.length) ++ EncodeInt64 now ++ data
        ++ EncodeInt64 now := by
  unfold AppendWithStatus.buffer
  have s0 := copyAt_zeros [] (EncodeInt8 (int8 status)) 0 (data.length + 21) rfl
    (by rw [EncodeInt8_length]; omega)
  simp only [List.nil_append, EncodeInt8_length] at s0
  have s1 := copyAt_zeros (EncodeInt8 (int8 status)) (EncodeInt32 (int32 data.length)) 1
    (data.length + 21 - 1) (by rw [EncodeInt8_length]) (by rw [EncodeInt32_length]; omega)
  have s2 := copyAt_zeros (EncodeInt8 (int8 status) ++ EncodeInt32 (int32 data.length))
    (EncodeInt64 now) 5 (data.length + 21 - 1 - 4)
    (by simp [EncodeInt8_length, EncodeInt32_length]) (by rw [EncodeInt64_length]; omega)
  have s3 := copyAt_zeros
    (EncodeInt8 (int8 status) ++ EncodeInt32 (int32 data.length) ++ EncodeInt64 now)
    data 13 (data.length + 21 - 1 - 4 - 8)
    (by simp [EncodeInt8_length, EncodeInt32_length, EncodeInt64_length]) (by omega)
  have s4 := copyAt_zeros
    (EncodeInt8 (int8 status) ++ EncodeInt32 (int32 data.length) ++ EncodeInt64 now ++ data)
    (EncodeInt64 now) (13 + data.length) (data.length + 21 - 1 - 4 - 8 - data.length)
    (by simp [EncodeInt8_length, EncodeInt32_length, EncodeInt64_length]; omega)
    (by rw [EncodeInt64_length]; omega)
  simp only [EncodeInt8_length, EncodeInt32_length, EncodeInt64_length] at s1 s2 s3 s4
  have e : data.length + 21 - 1 - 4 - 8 - data.length - 8 = 0 := by omega
  rw [e, List.replicate_zero, List.append_nil] at s4
  simp only []
  rw [s0, s1, s2, s3, s4]


theorem slice_mid (p m s : List Byte) (lo hi : Nat) (hlo : lo = p.length)
    (hhi : hi = lo + m.length) : slice (p ++ m ++ s) lo hi = m := by
  subst hlo; subst hhi
  unfold slice
  rw [List.append_assoc, List.drop_left, Nat.add_sub_cancel_left, List.take_left]

/-- C5. Frame layout: for a payload of length L below 2^31 and a status in
-128..127, the buffer built by `AppendWithStatus` has length L + 21; byte 0 is
the encoding of the status, bytes 1..4 the 32-bit encoding of L, bytes 5..12 the
8-byte marker (the encoded clock reading), bytes 13..13+L-1 the payload, and
bytes 13+L..13+L+7 the marker again. -/
theorem AppendWithStatus_buffer_layout (data : List Byte) (status now : Int)
    (hL : (data.length : Int) < 2 ^ 31) (hs : -128 ≤ status ∧ status ≤ 127) :
    (AppendWithStatus.buffer data status now).length = data.length + 21 ∧
    slice (AppendWithStatus.buffer data status now) 0 1 = EncodeInt8 status ∧
    slice (AppendWithStatus.buffer data status now) 1 5 = EncodeInt32 (data.length : Int) ∧
    slice (AppendWithStatus.buffer data status now) 5 13 = EncodeInt64 now ∧
    slice (AppendWithStatus.buffer data status now) 13 (13 + data.length) = data ∧
    slice (AppendWithStatus.buffer data status now) (13 + data.length) (13 + data.length + 8)
      = EncodeInt64 now := by
  have e8 : int8 status = status := by unfold int8; omega
  have e32 : int32 (data.length : Int) = data.length := by unfold int32; omega
  rw [buffer_eq, e8, e32]
  refine ⟨?_, ?_, ?_, ?_, ?_, ?_⟩
  · simp [EncodeInt8_length, EncodeInt32_length, EncodeInt64_length]; omega
  · have := slice_mid [] (EncodeInt8 status)
      (EncodeInt32 data.length ++ EncodeInt64 now ++ data ++ EncodeInt64 now) 0 1 rfl
      (by rw [EncodeInt8_length])
    simpa [List.append_assoc] using this
  · have := slice_mid (EncodeInt8 status) (EncodeInt32 data.length)
      (EncodeInt64 now ++ data ++ EncodeInt64 now) 1 5 (by rw [EncodeInt8_length])
      (by rw [EncodeInt32_length])
    simpa [List.append_assoc] using this
  · have := slice_mid (EncodeInt8 status ++ EncodeInt32 data.length) (EncodeInt64 now)
      (data ++ EncodeInt64 now) 5 13 (by simp [EncodeInt8_length, EncodeInt32_length])
      (by rw [EncodeInt64_length])
    simpa [List.append_assoc] using this
  · have := slice_mid (EncodeInt8 status ++ EncodeInt32 data.length ++ EncodeInt64 now) data
      (EncodeInt64 now) 13 (13 + data.length)
      (by simp [EncodeInt8_length, EncodeInt32_length, EncodeInt64_length]) rfl
    simpa [List.append_assoc] using this
  · have := slice_mid
      (EncodeInt8 status ++ EncodeInt32 data.length ++ EncodeInt64 now ++ data)
      (EncodeInt64 now) [] (13 + data.length) (13 + data.length + 8)
      (by simp [EncodeInt8_length, EncodeInt32_length, EncodeInt64_length]; omega)
      (by rw [EncodeInt64_length])
    simpa [List.append_assoc] using this

/-- Witness for C5: the frame of the one-byte payload 97 with status 1. -/
theorem AppendWithStatus_buffer_layout_witness :
    (AppendWithStatus.buffer [97] 1 77).length = 22 ∧
    slice (AppendWithStatus.buffer [97] 1 77) 0 1 = [1] ∧
    slice (AppendWithStatus.buffer [97] 1 77) 1 5 = [1, 0, 0, 0] ∧
    slice (AppendWithStatus.buffer [97] 1 77) 5 13 = [77, 0, 0, 0, 0, 0, 0, 0] ∧
    slice (AppendWithStatus.buffer [97] 1 77) 13 14 = [97] ∧
    slice (AppendWithStatus.buffer [97] 1 77) 14 22 = [77, 0, 0, 0, 0, 0, 0, 0] :=
  AppendWithStatus_buffer_layout [97] 1 77 (by decide) (by decide)

/-- C6. Marker invariant: in the frame built by `AppendWithStatus`, for every
payload, status and clock reading, the 8 bytes at offsets 5..12 (leading marker)
equal the 8 bytes at offsets 13+L..13+L+7 (trailing marker), L the payload
length. -/
theorem AppendWithStatus_buffer_markers (data : List Byte) (status now : Int) :
    slice (AppendWithStatus.buffer data status now) 5 13 =
      slice (AppendWithStatus.buffer data status now) (13 + data.length)
        (13 + data.length + 8) ∧
    (slice (AppendWithStatus.buffer data status now) 5 13).length = 8 := by
  rw [buffer_eq]
  have h1 := slice_mid (EncodeInt8 (int8 status) ++ EncodeInt32 (int32 data.length))
    (EncodeInt64 now) (data ++ EncodeInt64 now) 5 13
    (by simp [EncodeInt8_length, EncodeInt32_length]) (by rw [EncodeInt64_length])
  have h2 := slice_mid
    (EncodeInt8 (int8 status) ++ EncodeInt32 (int32 data.length) ++ EncodeInt64 now ++ data)
    (EncodeInt64 now) [] (13 + data.length) (13 + data.length + 8)
    (by simp [EncodeInt8_length, EncodeInt32_length, EncodeInt64_length]; omega)
    (by rw [EncodeInt64_length])
  simp only [List.append_assoc, List.append_nil] at h1 h2 ⊢
  rw [h1, h2]
  exact ⟨rfl, EncodeInt64_length now⟩

/-! ## Appending to a segment -/

theorem Disk_file_store (disk : Disk) (num : Int) (content : List Byte) :
    (Disk.store disk num content).file num = content := by
  simp [Disk.file, Disk.store, List.lookup]

theorem writeAt_end (file buffer : List Byte) :
    writeAt file file.length buffer = file ++ buffer := by
  simp [writeAt]

theorem BinLog_size_setSize (blog : BinLog) (num size : Int) :
    (blog.setSize num size).size num = size := by
  simp [BinLog.size, BinLog.setSize, List.lookup]

theorem getLog_tail (blog : BinLog) (disk : Disk) (num : Int) :
    (getLog blog disk num).tail = blog.tail := by
  unfold getLog; split <;> rfl

theorem getLog_head (blog : BinLog) (disk : Disk) (num : Int) :
    (getLog blog disk num).head = blog.head := by
  unfold getLog; split <;> rfl

theorem getLog_cap (blog : BinLog) (disk : Disk) (num : Int) :
    (getLog blog disk num).cap = blog.cap := by
  unfold getLog; split <;> rfl

/-- Every outcome of `Log.append`: the id with the new state, or an error of the
file layer. -/
theorem Log_append_cases (blog : BinLog) (disk : Disk) (io : Faults) (num : Int)
    (buffer : List Byte) (sync : List Bool) :
    Log.append blog disk io num buffer sync =
        (.ok (idByOffset num
            (int64 (int64 (((disk.file num).length : Int) + (buffer.length : Int))))),
          blog.setSize num (int64 (((disk.file num).length : Int) + (buffer.length : Int))),
          disk.store num (disk.file num ++ buffer)) ∨
      ∃ msg, (Log.append blog disk io num buffer sync).1 = .error (.io msg) ∧
        (Log.append blog disk io num buffer sync).2.1 = blog := by
  unfold Log.append
  split
  · exact Or.inr ⟨_, rfl, rfl⟩
  · split
    · exact Or.inr ⟨_, rfl, rfl⟩
    · split
      · exact Or.inr ⟨_, rfl, rfl⟩
      · split
        · exact Or.inr ⟨_, rfl, rfl⟩
        · left; simp only [writeAt_end]

theorem Log_append_none (blog : BinLog) (disk : Disk) (num : Int)
    (buffer : List Byte) (sync : List Bool) :
    Log.append blog disk Faults.none num buffer sync =
        (.ok (idByOffset num
            (int64 (int64 (((disk.file num).length : Int) + (buffer.length : Int))))),
          blog.setSize num (int64 (((disk.file num).length : Int) + (buffer.length : Int))),
          disk.store num (disk.file num ++ buffer)) := by
  unfold Log.append
  simp only [Faults.none, writeAt_end]
  split
  · rename_i h; cases h
  · rfl

theorem Log_append_ok {blog : BinLog} {disk : Disk} {io : Faults} {num : Int}
    {buffer : List Byte} {sync : List Bool} {id : Int}
    (h : (Log.append blog disk io num buffer sync).1 = .ok id) :
    Log.append blog disk io num buffer sync =
        (.ok (idByOffset num
            (int64 (int64 (((disk.file num).length : Int) + (buffer.length : Int))))),
          blog.setSize num (int64 (((disk.file num).length : Int) + (buffer.length : Int))),
          disk.store num (disk.file num ++ buffer)) := by
  rcases Log_append_cases blog disk io num buffer sync with h1 | ⟨msg, h1, _⟩
  · exact h1
  · rw [h1] at h; cases h

/-- C8 (amended). Returned address of an append: for a segment numbered n
(0 ≤ n ≤ 65535) whose file holds F bytes and a frame of B bytes with F + B
below 2^47, a successful `Log.append` leaves
the file as the old content followed by the frame (the frame at positions
F..F+B-1), sets the size counter to F + B, and returns the id whose offset part
is F + B and whose segment part is n. -/
theorem Log_append_address (blog : BinLog) (disk : Disk) (io : Faults) (n : Int)
    (buffer : List Byte) (sync : List Bool) (id : Int)
    (hn : 0 ≤ n ∧ n ≤ 65535)
    (hFB : ((disk.file n).length : Int) + (buffer.length : Int) < 2 ^ 47)
    (hok : (Log.append blog disk io n buffer sync).1 = .ok id) :
    (Log.append blog disk io n buffer sync).2.2.file n = disk.file n ++ buffer ∧
    (Log.append blog disk io n buffer sync).2.1.size n
      = ((disk.file n).length : Int) + (buffer.length : Int) ∧
    GetById.offset id = ((disk.file n).length : Int) + (buffer.length : Int) ∧
    GetById.num id = n := by
  have h := Log_append_ok hok
  rw [h] at hok
  simp only [Result.ok.injEq] at hok
  have e : int64 (((disk.file n).length : Int) + (buffer.length : Int))
      = ((disk.file n).length : Int) + (buffer.length : Int) :=
    int64_of_range (by omega) (by omega)
  rw [e, e] at hok
  rw [h]
  simp only [Disk_file_store, BinLog_size_setSize, e]
  have d := decode_idByOffset hn
    (show 0 ≤ ((disk.file n).length : Int) + (buffer.length : Int) ∧ _ from ⟨by omega, hFB⟩)
  rw [hok] at d
  exact ⟨trivial, trivial, d.2, d.1⟩

/-- Witness for C8 (amended): a 3-byte frame appended to segment 7 holding 2 bytes. -/
theorem Log_append_address_witness :
    (Log.append ⟨100, [], 0, 7, [(7, 2)]⟩ [(7, [5, 6])] Faults.none 7 [1, 2, 3] []).2.2.file 7
      = [5, 6] ++ [1, 2, 3] ∧
    (Log.append ⟨100, [], 0, 7, [(7, 2)]⟩ [(7, [5, 6])] Faults.none 7 [1, 2, 3] []).2.1.size 7
      = 5 ∧
    GetById.offset 327687 = 5 ∧ GetById.num 327687 = 7 :=
  Log_append_address ⟨100, [], 0, 7, [(7, 2)]⟩ [(7, [5, 6])] Faults.none 7 [1, 2, 3] [] 327687
    (by decide) (by decide) (by decide)

/-- C3 (counterexample). Appending one byte to the empty segment numbered 65536
returns the id 65536 with no error (the id of offset 1 in segment 0), and
`idByOffset` maps the offset 2^48 in segment 0 to the id 0. -/
theorem Log_append_out_of_range_no_error :
    (Log.append ⟨100, [], 0, 65536, [(65536, 0)]⟩ [] Faults.none 65536 [1] []).1
      = Result.ok 65536 ∧
    idByOffset 0 1 = 65536 ∧ idByOffset 0 (2 ^ 48) = 0 := by
  decide

/-- C3 (amended). `idByOffset` checks no range and `Log.append` has no
out-of-range error: for every segment number and every file content, also a
number above 65535 or a size above 2^48-1, `Log.append` returns the id
`size << 16 | num` (wrapped to 64 bits) when the file layer succeeds, and
whatever the file layer does its only other outcome is the error of the failing
file operation (`File`, `Seek`, `WriteAt` or `Sync`). -/
theorem Log_append_errors_only_from_files (blog : BinLog) (disk : Disk) (num : Int)
    (buffer : List Byte) (sync : List Bool) :
    (Log.append blog disk Faults.none num buffer sync).1
      = .ok (idByOffset num
          (int64 (int64 (((disk.file num).length : Int) + (buffer.length : Int))))) ∧
    ∀ io : Faults,
      (Log.append blog disk io num buffer sync).1
        = .ok (idByOffset num
            (int64 (int64 (((disk.file num).length : Int) + (buffer.length : Int))))) ∨
      ∃ msg, (Log.append blog disk io num buffer sync).1 = .error (.io msg) ∧
        (io.file = some msg ∨ io.seek = some msg ∨ (∃ n, io.write = some (n, msg)) ∨
          io.sync = some msg) := by
  refine ⟨by rw [Log_append_none], fun io => ?_⟩
  unfold Log.append
  split
  · rename_i e h; exact Or.inr ⟨e, rfl, Or.inl h⟩
  · split
    · rename_i e h; exact Or.inr ⟨e, rfl, Or.inr (Or.inl h)⟩
    · split
      · rename_i n e h; exact Or.inr ⟨e, rfl, Or.inr (Or.inr (Or.inl ⟨n, h⟩))⟩
      · split
        · rename_i e _ h; exact Or.inr ⟨e, rfl, Or.inr (Or.inr (Or.inr h))⟩
        · left; rfl

/-! ## Rotation -/

theorem Log_append_tail (blog : BinLog) (disk : Disk) (io : Faults) (num : Int)
    (buffer : List Byte) (sync : List Bool) :
    (Log.append blog disk io num buffer sync).2.1.tail = blog.tail := by
  rcases Log_append_cases blog disk io num buffer sync with h | ⟨_, _, h⟩
  · rw [h]; rfl
  · rw [h]

theorem rotate_tail_of_full (blog : BinLog) (disk : Disk) (h : blog.cap ≤ blog.size blog.tail) :
    (AppendWithStatus.rotate blog disk).tail = int64 (blog.tail + 1) := by
  unfold AppendWithStatus.rotate
  rw [if_pos (by simpa using h)]

theorem rotate_of_not_full (blog : BinLog) (disk : Disk) (h : blog.size blog.tail < blog.cap) :
    AppendWithStatus.rotate blog disk = blog := by
  unfold AppendWithStatus.rotate
  rw [if_neg (by simpa using h)]

theorem AppendWithStatus_tail (blog : BinLog) (disk : Disk) (io : Faults) (now : Int)
    (data : List Byte) (status : Int) (sync : List Bool) :
    (AppendWithStatus blog disk io now data status sync).2.1.tail
      = (AppendWithStatus.rotate blog disk).tail := by
  unfold AppendWithStatus
  exact Log_append_tail _ _ _ _ _ _

theorem AppendWithStatus_ok {blog : BinLog} {disk : Disk} {io : Faults} {now : Int}
    {data : List Byte} {status : Int} {sync : List Bool} {id : Int}
    (h : (AppendWithStatus blog disk io now data status sync).1 = .ok id) :
    id = idByOffset (AppendWithStatus.rotate blog disk).tail
        (int64 (int64 (((disk.file (AppendWithStatus.rotate blog disk).tail).length : Int)
          + ((AppendWithStatus.buffer data status now).length : Int)))) ∧
    (AppendWithStatus blog disk io now data status sync).2.2
      = disk.store (AppendWithStatus.rotate blog disk).tail
          (disk.file (AppendWithStatus.rotate blog disk).tail
            ++ AppendWithStatus.buffer data status now) := by
  unfold AppendWithStatus at h ⊢
  have h1 := Log_append_ok h
  rw [h1] at h
  simp only [Result.ok.injEq] at h
  rw [h1]
  exact ⟨h.symm, rfl⟩

/-- C7 (amended). Rotation: for every store state whose tail number is below the
largest `int`, an `AppendWithStatus` call made when the size of the tail is at least the
capacity makes the tail the segment numbered old tail + 1, and when it succeeds
the frame is appended to the file of that new segment; a call made when the size
of the tail is below the capacity leaves the tail number unchanged, and when it
succeeds the frame is appended to the file of the tail.  No call changes the tail
number by anything other than 0 or +1, and a call succeeds when the file layer
does. -/
theorem AppendWithStatus_rotation (blog : BinLog) (disk : Disk) (io : Faults) (now : Int)
    (data : List Byte) (status : Int) (sync : List Bool)
    (hlo : -2 ^ 63 ≤ blog.tail) (hhi : blog.tail < maxInt) :
    (blog.cap ≤ blog.size blog.tail →
      (AppendWithStatus blog disk io now data status sync).2.1.tail = blog.tail + 1 ∧
      ∀ id, (AppendWithStatus blog disk io now data status sync).1 = .ok id →
        (AppendWithStatus blog disk io now data status sync).2.2.file (blog.tail + 1)
          = disk.file (blog.tail + 1) ++ AppendWithStatus.buffer data status now) ∧
    (blog.size blog.tail < blog.cap →
      (AppendWithStatus blog disk io now data status sync).2.1.tail = blog.tail ∧
      ∀ id, (AppendWithStatus blog disk io now data status sync).1 = .ok id →
        (AppendWithStatus blog disk io now data status sync).2.2.file blog.tail
          = disk.file blog.tail ++ AppendWithStatus.buffer data status now) ∧
    ((AppendWithStatus blog disk io now data status sync).2.1.tail = blog.tail ∨
      (AppendWithStatus blog disk io now data status sync).2.1.tail = blog.tail + 1) ∧
    ∃ id, (AppendWithStatus blog disk Faults.none now data status sync).1 = .ok id := by
  have e : int64 (blog.tail + 1) = blog.tail + 1 :=
    int64_of_range (by omega) (by unfold maxInt at hhi; omega)
  have hfull : blog.cap ≤ blog.size blog.tail →
      (AppendWithStatus.rotate blog disk).tail = blog.tail + 1 := fun h => by
    rw [rotate_tail_of_full blog disk h, e]
  refine ⟨fun h => ⟨?_, fun id hid => ?_⟩, fun h => ⟨?_, fun id hid => ?_⟩, ?_, ?_⟩
  · rw [AppendWithStatus_tail, hfull h]
  · rw [(AppendWithStatus_ok hid).2, hfull h, Disk_file_store]
  · rw [AppendWithStatus_tail, rotate_of_not_full blog disk h]
  · rw [(AppendWithStatus_ok hid).2, rotate_of_not_full blog disk h, Disk_file_store]
  · rw [AppendWithStatus_tail]
    by_cases h : blog.cap ≤ blog.size blog.tail
    · exact Or.inr (hfull h)
    · exact Or.inl (by rw [rotate_of_not_full blog disk (by omega)])
  · unfold AppendWithStatus
    rw [Log_append_none]
    exact ⟨_, rfl⟩

/-- Witness for C7 (amended): a store of capacity 100 whose tail, segment 3, holds 120
bytes. -/
theorem AppendWithStatus_rotation_witness :
    (AppendWithStatus ⟨100, [], 0, 3, [(3, 120)]⟩ [] Faults.none 77 [97] 1 []).2.1.tail = 4 ∧
    (AppendWithStatus ⟨100, [], 0, 3, [(3, 120)]⟩ [] Faults.none 77 [97] 1 []).2.2.file 4
      = AppendWithStatus.buffer [97] 1 77 :=
  have h := AppendWithStatus_rotation ⟨100, [], 0, 3, [(3, 120)]⟩ [] Faults.none 77 [97] 1 []
    (by decide) (by decide)
  ⟨(h.1 (by decide)).1, (h.1 (by decide)).2 1441796 (by decide)⟩

/-! ## Successive appends -/

theorem buffer_length (data : List Byte) (status now : Int) :
    (AppendWithStatus.buffer data status now).length = data.length + 21 := by
  rw [buffer_eq]
  simp [EncodeInt8_length, EncodeInt32_length, EncodeInt64_length]; omega

/-- C9 (amended). Monotonic offsets: when two successive `AppendWithStatus` calls both
succeed and the second leaves the tail where the first left it (both frames went
to the same segment, numbered in 0..65535, whose file stays below 2^47 bytes),
the offset decoded from the second returned address is strictly greater than the
offset decoded from the first, and the two addresses differ. -/
theorem AppendWithStatus_offsets_increase (blog : BinLog) (disk : Disk) (io1 io2 : Faults)
    (now1 now2 : Int) (data1 data2 : List Byte) (status1 status2 : Int)
    (sync1 sync2 : List Bool) (id1 id2 : Int) (blog1 blog2 : BinLog) (disk1 disk2 : Disk)
    (h1 : AppendWithStatus blog disk io1 now1 data1 status1 sync1 = (.ok id1, blog1, disk1))
    (h2 : AppendWithStatus blog1 disk1 io2 now2 data2 status2 sync2 = (.ok id2, blog2, disk2))
    (hsame : blog2.tail = blog1.tail)
    (hnum : 0 ≤ blog1.tail ∧ blog1.tail ≤ 65535)
    (hlen : ((disk2.file blog2.tail).length : Int) < 2 ^ 47) :
    GetById.offset id1 < GetById.offset id2 ∧ id1 ≠ id2 := by
  have t1 := AppendWithStatus_tail blog disk io1 now1 data1 status1 sync1
  have t2 := AppendWithStatus_tail blog1 disk1 io2 now2 data2 status2 sync2
  have a1 := AppendWithStatus_ok (show (AppendWithStatus blog disk io1 now1 data1 status1
    sync1).1 = .ok id1 by rw [h1])
  have a2 := AppendWithStatus_ok (show (AppendWithStatus blog1 disk1 io2 now2 data2 status2
    sync2).1 = .ok id2 by rw [h2])
  rw [h1] at t1 a1
  rw [h2] at t2 a2
  simp only at t1 t2 a1 a2
  rw [← t1] at a1
  rw [← t2, hsame] at a2
  rw [hsame] at hlen
  obtain ⟨i1, d1⟩ := a1
  obtain ⟨i2, d2⟩ := a2
  rw [d2, Disk_file_store, d1, Disk_file_store] at hlen
  rw [d1, Disk_file_store] at i2
  simp only [List.length_append, buffer_length, Nat.cast_add, Nat.cast_ofNat] at hlen i1 i2
  have b1 : 0 ≤ ((disk.file blog1.tail).length : Int) + ((data1.length : Int) + 21) ∧
      ((disk.file blog1.tail).length : Int) + ((data1.length : Int) + 21) < 2 ^ 47 :=
    ⟨by clear i1 i2; omega, by clear i1 i2; omega⟩
  have b2 : 0 ≤ ((disk.file blog1.tail).length : Int) + ((data1.length : Int) + 21)
        + ((data2.length : Int) + 21) ∧
      ((disk.file blog1.tail).length : Int) + ((data1.length : Int) + 21)
        + ((data2.length : Int) + 21) < 2 ^ 47 :=
    ⟨by clear i1 i2; omega, hlen⟩
  have step : ((disk.file blog1.tail).length : Int) + ((data1.length : Int) + 21)
      < ((disk.file blog1.tail).length : Int) + ((data1.length : Int) + 21)
        + ((data2.length : Int) + 21) := by clear i1 i2; omega
  have e1 := int64_of_range (le_trans (by decide) b1.1) (lt_trans b1.2 (by decide))
  have e2 := int64_of_range (le_trans (by decide) b2.1) (lt_trans b2.2 (by decide))
  rw [e1, e1] at i1
  rw [e2, e2] at i2
  have o1 := (decode_idByOffset hnum b1).2
  have o2 := (decode_idByOffset hnum b2).2
  rw [← i1] at o1
  rw [← i2] at o2
  have lt : GetById.offset id1 < GetById.offset id2 := by rw [o1, o2]; exact step
  refine ⟨lt, fun h => ?_⟩
  rw [h] at lt
  exact lt_irrefl _ lt

/-- Witness for C9 (amended): two one-byte payloads appended to the empty segment 0 of a
store of capacity 100. -/
theorem AppendWithStatus_offsets_increase_witness :
    GetById.offset 1441792 < GetById.offset 2883584 ∧ (1441792 : Int) ≠ 2883584 :=
  AppendWithStatus_offsets_increase ⟨100, [], 0, 0, [(0, 0)]⟩ [] Faults.none Faults.none
    77 78 [97] [98] 1 2 [] [] 1441792 2883584
    ⟨100, [], 0, 0, [(0, 22), (0, 0)]⟩
    ⟨100, [], 0, 0, [(0, 44), (0, 22), (0, 0)]⟩
    [(0, AppendWithStatus.buffer [97] 1 77)]
    [(0, AppendWithStatus.buffer [97] 1 77 ++ AppendWithStatus.buffer [98] 2 78),
      (0, AppendWithStatus.buffer [97] 1 77)]
    (by decide) (by decide) (by decide) (by decide) (by decide)

/-! ## Reading by id -/

theorem getLog_idem (blog : BinLog) (disk : Disk) (num : Int) :
    getLog (getLog blog disk num) disk num = getLog blog disk num := by
  unfold getLog
  cases h : blog.logs.lookup num with
  | some v => simp [h]
  | none => simp [List.lookup]

theorem GetById_item_ok {read : Reader} {file : List Byte} {offset id : Int} {item : LogItem}
    (h : GetById.item read file offset id = some (.ok item)) : item = LogItem.zero := by
  unfold GetById.item at h
  split at h
  · cases h
  · split at h
    · cases h
    · simp only at h
      split at h
      · split at h
        · cases h
        · simp only [Option.some.injEq, Result.ok.injEq] at h; exact h.symm
      · simp only [Option.some.injEq, Result.ok.injEq] at h; exact h.symm

theorem GetById_loop_ok {read : Reader} {disk : Disk} {io : Faults} {id num offset : Int}
    {item : LogItem} (fuel : Nat) (blog : BinLog)
    (h : (GetById.loop read disk io id num offset fuel blog).1 = some (.ok item)) :
    item = LogItem.zero := by
  induction fuel generalizing blog with
  | zero => simp [GetById.loop] at h
  | succ n ih =>
    unfold GetById.loop at h
    simp only at h
    split at h
    · cases h
    · split at h
      · cases h
      · split at h
        · rename_i r hr
          simp only [Option.some.injEq] at h
          rw [h] at hr
          exact GetById_item_ok hr
        · exact ih _ h

theorem GetById_loop_diverges {read : Reader} {disk : Disk} {io : Faults} {id num offset : Int}
    (hio : io.file = none)
    (hitem : GetById.item read (disk.file num) offset id = none) (fuel : Nat) (blog : BinLog)
    (hsize : (getLog blog disk num).size num ≠ 0) :
    (GetById.loop read disk io id num offset fuel blog).1 = none := by
  induction fuel generalizing blog with
  | zero => rfl
  | succ n ih =>
    unfold GetById.loop
    simp only [if_neg hsize, hio, hitem]
    exact ih _ (by rw [getLog_idem]; exact hsize)

theorem GetById_loop_item {read : Reader} {disk : Disk} {io : Faults} {id num offset : Int}
    {r : Result LogItem} (hio : io.file = none)
    (hitem : GetById.item read (disk.file num) offset id = some r) (fuel : Nat) (blog : BinLog)
    (hsize : (getLog blog disk num).size num ≠ 0) :
    (GetById.loop read disk io id num offset (fuel + 1) blog).1 = some r := by
  unfold GetById.loop
  simp only [if_neg hsize, hio, hitem]

/-- C1 (the code at the failing input). A store is opened on an empty directory
with capacity 100 and the payload [97] is appended with status 1: the address
returned is 1441792 (offset 22, the end of the frame, in segment 0).  `GetById`
on that address reads at the end of the file: with the positioned read of the
spec it never returns, whatever the fuel, and with any positioned read at all a
`LogItem` it returns has status 0 and an empty buffer. -/
theorem GetById_after_append :
    New true [] [] "events".toList [100]
      = .ok ⟨100, "events".toList, 0, 0, [(0, 0)]⟩ ∧
    AppendWithStatus ⟨100, "events".toList, 0, 0, [(0, 0)]⟩ [] Faults.none 77 [97] 1 []
      = (.ok 1441792, ⟨100, "events".toList, 0, 0, [(0, 22), (0, 0)]⟩,
          [(0, AppendWithStatus.buffer [97] 1 77)]) ∧
    (∀ fuel : Nat,
      (GetById GetBinContentByTwoOffsets ⟨100, "events".toList, 0, 0, [(0, 22), (0, 0)]⟩
        [(0, AppendWithStatus.buffer [97] 1 77)] Faults.none 1441792 fuel).1 = none) ∧
    (∀ (read : Reader) (fuel : Nat) (item : LogItem),
      (GetById read ⟨100, "events".toList, 0, 0, [(0, 22), (0, 0)]⟩
        [(0, AppendWithStatus.buffer [97] 1 77)] Faults.none 1441792 fuel).1
          = some (.ok item) →
      item.Status = 0 ∧ item.Buffer = []) := by
  refine ⟨by decide, by decide, fun fuel => ?_, fun read fuel item h => ?_⟩
  · exact GetById_loop_diverges rfl (by decide) fuel _ (by decide)
  · rw [GetById_loop_ok fuel _ h]
    exact ⟨rfl, rfl⟩

/-- C4 (counterexample). Segment 0 holds the frame of payload [97] (status 1,
marker 77) followed by the frame of payload [98]; byte 14, the first byte of
the trailing marker of the first frame, is then changed to 78, so the
markers of the first frame differ.  `GetById` returns a `LogItem`, not an
error, for the address `AppendWithStatus` returned for the first record
(1441792, offset 22) and also for the address of the offset where that frame
starts (0). -/
theorem GetById_corrupt_marker_returns_item :
    slice ((AppendWithStatus.buffer [97] 1 77).set 14 78 ++ AppendWithStatus.buffer [98] 2 79)
        5 13
      ≠ slice ((AppendWithStatus.buffer [97] 1 77).set 14 78 ++ AppendWithStatus.buffer [98] 2 79)
        14 22 ∧
    (GetById GetBinContentByTwoOffsets ⟨100, [], 0, 0, [(0, 44)]⟩
      [(0, (AppendWithStatus.buffer [97] 1 77).set 14 78 ++ AppendWithStatus.buffer [98] 2 79)]
      Faults.none 1441792 1).1 = some (.ok LogItem.zero) ∧
    (GetById GetBinContentByTwoOffsets ⟨100, [], 0, 0, [(0, 44)]⟩
      [(0, (AppendWithStatus.buffer [97] 1 77).set 14 78 ++ AppendWithStatus.buffer [98] 2 79)]
      Faults.none 0 1).1 = some (.ok LogItem.zero) := by
  decide

/-- C4 (amended). `GetById` does not compare the markers of a frame: whatever
bytes the file holds, when the size counter of the addressed segment is not 0,
the file handle is obtained, and the block read at the decoded offset holds at
least 5 bytes and at least the declared payload length + 21 bytes, `GetById`
returns a `LogItem` and no error. -/
theorem GetById_ignores_markers (read : Reader) (blog : BinLog) (disk : Disk) (id : Int)
    (fuel : Nat) (buffer : List Byte)
    (hsize : (getLog blog disk (GetById.num id)).size (GetById.num id) ≠ 0)
    (hread : read (disk.file (GetById.num id)) (GetById.offset id) gDEFAULT_BLOCK_SIZE
      = some buffer)
    (hlen : 5 ≤ buffer.length)
    (hitem : int64 (int32 (DecodeToInt32 (slice buffer 1 5) + 21)) ≤ (buffer.length : Int)) :
    ∃ item : LogItem, (GetById read blog disk Faults.none id (fuel + 1)).1 = some (.ok item) := by
  refine ⟨LogItem.zero, ?_⟩
  unfold GetById
  refine GetById_loop_item rfl ?_ fuel blog hsize
  unfold GetById.item
  rw [hread]
  simp only [if_neg (not_lt.mpr hlen), gt_iff_lt, if_neg (not_lt.mpr hitem)]

/-- Witness for C4 (amended): the block read at offset 22 of the file of the
counterexample is the second frame. -/
theorem GetById_ignores_markers_witness :
    ∃ item : LogItem, (GetById GetBinContentByTwoOffsets ⟨100, [], 0, 0, [(0, 44)]⟩
      [(0, (AppendWithStatus.buffer [97] 1 77).set 14 78 ++ AppendWithStatus.buffer [98] 2 79)]
      Faults.none 1441792 (0 + 1)).1 = some (.ok item) :=
  GetById_ignores_markers GetBinContentByTwoOffsets ⟨100, [], 0, 0, [(0, 44)]⟩
    [(0, (AppendWithStatus.buffer [97] 1 77).set 14 78 ++ AppendWithStatus.buffer [98] 2 79)]
    1441792 0 (AppendWithStatus.buffer [98] 2 79) (by decide) (by decide) (by decide)
    (by decide)

/-! ## Opening a store -/

/-- C10 (the code at the failing input). The directory holds the files `x.3` and
`x.4` (and no `x.0`): `New` makes segment 0 the head, not segment 3, and
segment 4 the tail. -/
theorem New_head_is_zero :
    New true ["x.3".toList, "x.4".toList] [(3, [1, 2]), (4, [3])] "x".toList []
      = .ok ⟨gDEFAULT_MAX_CAP, "x".toList, 0, 4, [(4, 1), (0, 0)]⟩ := by
  decide

/-- The head of a store that `New` returns is always segment 0: `min` is never
assigned in the discovery loop. -/
theorem New_head (writable : Bool) (files : List (List Char)) (disk : Disk)
    (name : List Char) (cap : List Int) (blog : BinLog)
    (h : New writable files disk name cap = .ok blog) : blog.head = 0 := by
  unfold New at h
  split at h
  · cases h
  · simp only at h
    split at h
    · cases h
    · cases h
    · split at h
      · simp only [Result.ok.injEq] at h
        rw [← h]
        exact getLog_head _ _ _
      · simp only [Result.ok.injEq] at h
        rw [← h]

/-! ## The address codec outside its range -/

/-- C2 (the code at the failing input). For segment 0 and offset 2^47, which is
below 2^48, `idByOffset` builds the id -2^63 and `GetById` decodes the offset
-2^47 from it. -/
theorem decode_idByOffset_bit47 :
    idByOffset 0 (2 ^ 47) = -(2 ^ 63) ∧
    GetById.offset (idByOffset 0 (2 ^ 47)) = -(2 ^ 47) ∧
    GetById.num (idByOffset 0 (2 ^ 47)) = 0 := by
  decide

/-! ## Discovery of the segments -/

/-- C11 (the code at the failing input). The directory holds the segment file
`x.3` and a file `x.7.bak`: `New` makes segment 7 the tail (its file `x.7` does
not exist, so its size is 0), not segment 3; the names `x.+9` and `x.007` move
the tail as well. -/
theorem New_tail_from_other_names :
    New true ["x.3".toList, "x.7.bak".toList] [(3, [1, 2])] "x".toList []
      = .ok ⟨gDEFAULT_MAX_CAP, "x".toList, 0, 7, [(7, 0), (0, 0)]⟩ ∧
    New.scan "x".toList ["x.3".toList, "x.+9".toList] 0 = .ok 9 ∧
    New.scan "x".toList ["x.3".toList, "x.007".toList] 0 = .ok 7 := by
  decide

/-- C18 (the code at the failing input). The directory holds a file named `x`,
the base name itself: `strings.Split` gives one component and `array[1]` is
out of range, so the discovery loop panics and `New` does not return; the same
happens after a well-formed segment file. -/
theorem New_scan_panics_without_second_component :
    New.scan "x".toList ["x".toList] 0 = .panic ∧
    New true ["x".toList] [] "x".toList [] = .panic ∧
    New true ["x.3".toList, "x".toList] [(3, [1, 2])] "x".toList [] = .panic := by
  decide

/-! ## Malformed frames -/

/-- C12 (the code at the failing inputs). Segment 0 holds 20 bytes whose length
field is -1: `GetById` computes the item size 20 and returns a `LogItem`, no
error.  It holds 22 bytes whose length field is 2^31-1: the item size
`length + 21` wraps to a negative `int32` and a `LogItem` is returned, no
error.  It holds 3 bytes: the slice expression `buffer[1:5]` is out of range
and `GetById` panics. -/
theorem GetById_malformed_frames :
    (GetById GetBinContentByTwoOffsets ⟨100, [], 0, 0, [(0, 20)]⟩
      [(0, [1, 255, 255, 255, 255] ++ List.replicate 15 0)] Faults.none 0 1).1
        = some (.ok LogItem.zero) ∧
    (GetById GetBinContentByTwoOffsets ⟨100, [], 0, 0, [(0, 22)]⟩
      [(0, [1, 255, 255, 255, 127] ++ List.replicate 17 0)] Faults.none 0 1).1
        = some (.ok LogItem.zero) ∧
    (GetById GetBinContentByTwoOffsets ⟨100, [], 0, 0, [(0, 3)]⟩
      [(0, [1, 2, 3])] Faults.none 0 1).1 = some .panic := by
  decide

/-! ## Records that are not found -/

/-- C13. RecordNotFound: for every id whose decoded segment (`id & 0xffff`) has
size 0, `GetById` returns no item and the error `data not found for id`, in its
first pass through the loop; the result is the same for every positioned read
and every behaviour of the file layer, so no file is opened or read. -/
theorem GetById_not_found (read : Reader) (blog : BinLog) (disk : Disk) (io : Faults)
    (id : Int) (fuel : Nat)
    (hsize : (getLog blog disk (GetById.num id)).size (GetById.num id) = 0) :
    GetById read blog disk io id (fuel + 1)
      = (some (.error (.dataNotFound id)), getLog blog disk (GetById.num id)) := by
  unfold GetById GetById.loop
  simp only [hsize, if_true]

/-- Witness for C13: segment 5 of an empty directory has size 0. -/
theorem GetById_not_found_witness :
    GetById GetBinContentByTwoOffsets ⟨100, [], 0, 0, [(0, 0)]⟩ [] Faults.none 5 (0 + 1)
      = (some (.error (.dataNotFound 5)),
          getLog ⟨100, [], 0, 0, [(0, 0)]⟩ [] (GetById.num 5)) :=
  GetById_not_found GetBinContentByTwoOffsets ⟨100, [], 0, 0, [(0, 0)]⟩ [] Faults.none 5 0
    (by decide)

/-! ## Outside the range of the machine integers -/

/-- C7 (counterexample). A directory holds the file `x.9223372036854775807`:
`New` with capacity 0 makes segment 2^63-1 the tail.  The size of the tail, 0,
has reached the capacity, so `AppendWithStatus` rotates: `tail.num + 1`
overflows and the new tail is segment -2^63, not the old number + 1. -/
theorem AppendWithStatus_rotation_overflow :
    New true ["x.9223372036854775807".toList] [] "x".toList [0]
      = .ok ⟨0, "x".toList, 0, 2 ^ 63 - 1, [(2 ^ 63 - 1, 0), (0, 0)]⟩ ∧
    (AppendWithStatus ⟨0, "x".toList, 0, 2 ^ 63 - 1, [(2 ^ 63 - 1, 0), (0, 0)]⟩ []
      Faults.none 77 [97] 1 []).2.1.tail = -(2 ^ 63) ∧
    (AppendWithStatus ⟨0, "x".toList, 0, 2 ^ 63 - 1, [(2 ^ 63 - 1, 0), (0, 0)]⟩ []
      Faults.none 77 [97] 1 []).1 = .ok (-9223372036853334016) := by
  decide

theorem Disk_file_head (disk : Disk) (num : Int) (content : List Byte) :
    Disk.file ((num, content) :: disk) num = content := by
  simp [Disk.file, List.lookup]

theorem AppendWithStatus_none_not_full (blog : BinLog) (disk : Disk) (now : Int)
    (data : List Byte) (status : Int) (sync : List Bool)
    (h : blog.size blog.tail < blog.cap) :
    (AppendWithStatus blog disk Faults.none now data status sync).1
        = .ok (idByOffset blog.tail
            (int64 (int64 (((disk.file blog.tail).length : Int) + ((data.length : Int) + 21))))) ∧
    (AppendWithStatus blog disk Faults.none now data status sync).2.1
        = blog.setSize blog.tail
            (int64 (((disk.file blog.tail).length : Int) + ((data.length : Int) + 21))) ∧
    (AppendWithStatus blog disk Faults.none now data status sync).2.2
        = (blog.tail, disk.file blog.tail ++ AppendWithStatus.buffer data status now) :: disk := by
  unfold AppendWithStatus
  rw [rotate_of_not_full blog disk h]
  simp only [Log_append_none, buffer_length, Nat.cast_add, Nat.cast_ofNat]
  exact ⟨trivial, trivial, rfl⟩

/-- C9 (counterexample). On the empty segment 3801088 (a number above 65535,
which a file name or rotation can give the tail) two successive successful
`AppendWithStatus` calls both return the id 4063232: the segment number
overlaps the offset bits, the decoded offsets are both 62 and the addresses
are equal.  On segment 0 holding 2^47 - 23 bytes, in a store of capacity 2^62,
two successive successful calls return ids whose decoded offsets are 2^47 - 1
and then -2^47 + 21: the second is the smaller. -/
theorem AppendWithStatus_same_id_twice :
    AppendWithStatus ⟨100, [], 0, 3801088, [(3801088, 0)]⟩ [] Faults.none 77 [97] 1 []
      = (.ok 4063232, ⟨100, [], 0, 3801088, [(3801088, 22), (3801088, 0)]⟩,
          [(3801088, AppendWithStatus.buffer [97] 1 77)]) ∧
    (AppendWithStatus ⟨100, [], 0, 3801088, [(3801088, 22), (3801088, 0)]⟩
      [(3801088, AppendWithStatus.buffer [97] 1 77)] Faults.none 78 [98] 2 []).1
        = .ok 4063232 ∧
    (AppendWithStatus ⟨100, [], 0, 3801088, [(3801088, 22), (3801088, 0)]⟩
      [(3801088, AppendWithStatus.buffer [97] 1 77)] Faults.none 78 [98] 2 []).2.1.tail
        = 3801088 ∧
    GetById.offset 4063232 = 62 ∧
    (AppendWithStatus ⟨2 ^ 62, [], 0, 0, [(0, 2 ^ 47 - 23)]⟩
      [(0, List.replicate (2 ^ 47 - 23) 0)] Faults.none 77 [97] 1 []).1
        = .ok 9223372036854710272 ∧
    (AppendWithStatus ⟨2 ^ 62, [], 0, 0, [(0, 2 ^ 47 - 23)]⟩
      [(0, List.replicate (2 ^ 47 - 23) 0)] Faults.none 77 [97] 1 []).2.1
        = ⟨2 ^ 62, [], 0, 0, [(0, 2 ^ 47 - 1), (0, 2 ^ 47 - 23)]⟩ ∧
    (AppendWithStatus ⟨2 ^ 62, [], 0, 0, [(0, 2 ^ 47 - 23)]⟩
      [(0, List.replicate (2 ^ 47 - 23) 0)] Faults.none 77 [97] 1 []).2.2
        = [(0, List.replicate (2 ^ 47 - 23) 0 ++ AppendWithStatus.buffer [97] 1 77),
            (0, List.replicate (2 ^ 47 - 23) 0)] ∧
    (AppendWithStatus ⟨2 ^ 62, [], 0, 0, [(0, 2 ^ 47 - 1), (0, 2 ^ 47 - 23)]⟩
      [(0, List.replicate (2 ^ 47 - 23) 0 ++ AppendWithStatus.buffer [97] 1 77),
        (0, List.replicate (2 ^ 47 - 23) 0)] Faults.none 78 [98] 2 []).1
        = .ok (-9223372036853399552) ∧
    (AppendWithStatus ⟨2 ^ 62, [], 0, 0, [(0, 2 ^ 47 - 1), (0, 2 ^ 47 - 23)]⟩
      [(0, List.replicate (2 ^ 47 - 23) 0 ++ AppendWithStatus.buffer [97] 1 77),
        (0, List.replicate (2 ^ 47 - 23) 0)] Faults.none 78 [98] 2 []).2.1.tail = 0 ∧
    GetById.offset 9223372036854710272 = 2 ^ 47 - 1 ∧
    GetById.offset (-9223372036853399552) = -(2 ^ 47) + 21 := by
  have a1 := AppendWithStatus_none_not_full ⟨2 ^ 62, [], 0, 0, [(0, 2 ^ 47 - 23)]⟩
    [(0, List.replicate (2 ^ 47 - 23) 0)] 77 [97] 1 [] (by decide)
  have a2 := AppendWithStatus_none_not_full
    ⟨2 ^ 62, [], 0, 0, [(0, 2 ^ 47 - 1), (0, 2 ^ 47 - 23)]⟩
    [(0, List.replicate (2 ^ 47 - 23) 0 ++ AppendWithStatus.buffer [97] 1 77),
      (0, List.replicate (2 ^ 47 - 23) 0)] 78 [98] 2 [] (by decide)
  simp only [Disk_file_head, List.length_append, List.length_replicate, buffer_length,
    List.length_cons, List.length_nil] at a1 a2
  refine ⟨by decide, by decide, by decide, by decide, ?_, ?_, a1.2.2, ?_, ?_, by decide,
    by decide⟩
  · rw [a1.1]; decide
  · rw [a1.2.1]; decide
  · rw [a2.1]; decide
  · rw [a2.2.1]; decide
theorem Disk_file_single (num : Int) (content : List Byte) :
    Disk.file [(num, content)] num = content := by
  simp [Disk.file, List.lookup]

/-- C8 (counterexample). Segment 0 holds 2^48 - 3 bytes and a frame of 3 bytes
is appended: the append succeeds, the end offset 2^48 does not fit the offset
bits of the id, the id returned is 0 and its offset part is 0.  With 2^47 - 3
bytes in the file the id returned is -2^63 and its offset part is -2^47. -/
theorem Log_append_offset_out_of_range :
    (Log.append ⟨100, [], 0, 0, [(0, 2 ^ 48 - 3)]⟩ [(0, List.replicate (2 ^ 48 - 3) 0)]
      Faults.none 0 [1, 2, 3] []).1 = .ok 0 ∧
    GetById.offset 0 = 0 ∧
    (Log.append ⟨100, [], 0, 0, [(0, 2 ^ 47 - 3)]⟩ [(0, List.replicate (2 ^ 47 - 3) 0)]
      Faults.none 0 [1, 2, 3] []).1 = .ok (-(2 ^ 63)) ∧
    GetById.offset (-(2 ^ 63)) = -(2 ^ 47) := by
  refine ⟨?_, by decide, ?_, by decide⟩
  · rw [Log_append_none, Disk_file_single, List.length_replicate]
    simp only [List.length_cons, List.length_nil]
    decide
  · rw [Log_append_none, Disk_file_single, List.length_replicate]
    simp only [List.length_cons, List.length_nil]
    decide

end gbinlog

namespace gdrh

/-! ## The binary search of a partition -/

theorem index_of_range {α : Type} (s : List α) (i : Int) (h0 : 0 ≤ i)
    (h1 : i < (s.length : Int)) : ∃ a, index s i = some a := by
  unfold index
  rw [if_neg (by omega)]
  have h : i.toNat < s.length := by omega
  exact ⟨s.get ⟨i.toNat, h⟩, List.get?_eq_get h⟩

theorem search_loop_returns (items : List item) (key : Int) (fuel : Nat) :
    ∀ (min max mid cmp : Int), 0 ≤ min → max < (items.length : Int) →
      max - min ≤ (fuel : Int) →
      ∃ r, part.search.loop items key fuel min max mid cmp = some (.value r) := by
  induction fuel with
  | zero =>
    intro min max mid cmp _ _ h
    unfold part.search.loop
    rw [if_neg (by omega)]
    exact ⟨_, rfl⟩
  | succ n ih =>
    intro min max mid cmp h0 h1 h
    unfold part.search.loop
    by_cases hlt : min < max
    · rw [if_pos hlt]
      have hm : (min + max).tdiv 2 = (min + max) / 2 :=
        Int.tdiv_eq_ediv (by omega) (by omega)
      simp only [hm]
      obtain ⟨it, hit⟩ := index_of_range items ((min + max) / 2) (by omega) (by omega)
      rw [hit]
      simp only
      split
      · exact ih _ _ _ _ h0 (by omega) (by push_cast at h; omega)
      · split
        · exact ih _ _ _ _ (by omega) h1 (by push_cast at h; omega)
        · exact ⟨_, rfl⟩
    · rw [if_neg hlt]
      exact ⟨_, rfl⟩

/-- The loop of `part.search` always ends within the fuel given and never indexes
out of range: `part.search` returns a pair for every partition and key. -/
theorem part_search_returns (p : part) (key : Int) :
    ∃ r, part.search p key = some (.value r) := by
  unfold part.search
  exact search_loop_returns p.items key p.items.length 0 _ 0 (-2) (le_refl 0) (by omega)
    (by omega)

/-- C15 (the code at the failing inputs). In the partition holding the one key
5, `part.search(5)` never enters its loop and returns (0, -2); in the sorted
partition of the keys 1 and 2, `part.search(2)` compares with key 1 only and
returns (0, 1).  In both the key is present and the second result is not 0. -/
theorem part_search_misses_present_key :
    sortedKeys [⟨5, 50⟩] = true ∧
    part.search ⟨[⟨5, 50⟩]⟩ 5 = some (.value (0, -2)) ∧
    sortedKeys [⟨1, 10⟩, ⟨2, 20⟩] = true ∧
    part.search ⟨[⟨1, 10⟩, ⟨2, 20⟩]⟩ 2 = some (.value (0, 1)) := by
  decide

/-- C16 (the code at the failing inputs). Setting key 5 in the partition that
holds key 5 leaves the keys 5, 5; setting key 4 in the sorted partition of the
keys 1 and 3 leaves the keys 1, 4, 3.  Neither result is sorted strictly
ascending, through `table.set` as well. -/
theorem table_set_breaks_sortedness :
    table.set.update ⟨[⟨5, 50⟩]⟩ 5 99 = some (.value ⟨[⟨5, 50⟩, ⟨5, 99⟩]⟩) ∧
    sortedKeys [⟨5, 50⟩, ⟨5, 99⟩] = false ∧
    sortedKeys [⟨1, 10⟩, ⟨3, 30⟩] = true ∧
    table.set.update ⟨[⟨1, 10⟩, ⟨3, 30⟩]⟩ 4 40
      = some (.value ⟨[⟨1, 10⟩, ⟨4, 40⟩, ⟨3, 30⟩]⟩) ∧
    sortedKeys [⟨1, 10⟩, ⟨4, 40⟩, ⟨3, 30⟩] = false ∧
    table.set ⟨0, 1, [some ⟨[⟨5, 50⟩]⟩]⟩ 5 99
      = some (.value ⟨0, 1, [some ⟨[⟨5, 50⟩, ⟨5, 99⟩]⟩]⟩) := by
  decide

end gdrh

namespace ghttp

/-! ## The rate limit of the admin actions -/

/-- C14. Admin action rate limit: for clock readings and a recorded time that are
non-negative `int64` values, `checkActionFrequence` returns an error if and only
if fewer than 2000 ms lie between the recorded last-action time and the first
clock reading; with the error the process variables are unchanged, and without
it the recorded time becomes the second clock reading and nothing else changes. -/
theorem checkActionFrequence_limit (p : Process) (now1 now2 : Int)
    (hlast : 0 ≤ p.serverActionLastTime ∧ p.serverActionLastTime < 2 ^ 63)
    (hnow : 0 ≤ now1 ∧ now1 < 2 ^ 63) :
    ((checkActionFrequence p now1 now2).1 ≠ none ↔ now1 - p.serverActionLastTime < 2000) ∧
    ((checkActionFrequence p now1 now2).1 ≠ none → (checkActionFrequence p now1 now2).2 = p) ∧
    ((checkActionFrequence p now1 now2).1 = none →
      (checkActionFrequence p now1 now2).2 = { p with serverActionLastTime := now2 }) := by
  have e : gbinlog.int64 (now1 - p.serverActionLastTime) = now1 - p.serverActionLastTime :=
    gbinlog.int64_of_range (by omega) (by omega)
  unfold checkActionFrequence
  simp only [e, gADMIN_ACTION_INTERVAL_LIMIT]
  by_cases h : now1 - p.serverActionLastTime < 2000
  · rw [if_pos h]
    exact ⟨⟨fun _ => h, fun _ hn => by cases hn⟩, fun _ => rfl, fun hn => by cases hn⟩
  · rw [if_neg h]
    exact ⟨⟨fun hn => absurd rfl hn, fun hf => absurd hf h⟩,
      fun hn => absurd rfl hn, fun _ => rfl⟩

/-- Witness for C14: 1500 ms after the recorded time the call is refused. -/
theorem checkActionFrequence_limit_witness :
    ((checkActionFrequence ⟨1000, 0, []⟩ 2500 2501).1 ≠ none ↔ (2500 : Int) - 1000 < 2000) ∧
    ((checkActionFrequence ⟨1000, 0, []⟩ 2500 2501).1 ≠ none →
      (checkActionFrequence ⟨1000, 0, []⟩ 2500 2501).2 = ⟨1000, 0, []⟩) ∧
    ((checkActionFrequence ⟨1000, 0, []⟩ 2500 2501).1 = none →
      (checkActionFrequence ⟨1000, 0, []⟩ 2500 2501).2
        = { (⟨1000, 0, []⟩ : Process) with serverActionLastTime := 2501 }) :=
  checkActionFrequence_limit ⟨1000, 0, []⟩ 2500 2501 (by decide) (by decide)

/-! ## Shutting down -/

theorem Restart_of_shuttingDown (p : Process) (env : Env)
    (h : p.serverProcessStatus = gADMIN_ACTION_SHUTINGDOWN) :
    Server.Restart p env = (some .shuttingDown, p) := by
  unfold Server.Restart checkActionStatus
  simp [h, gADMIN_ACTION_SHUTINGDOWN, gADMIN_ACTION_RESTARTING]

theorem Shutdown_of_shuttingDown (p : Process) (env : Env)
    (h : p.serverProcessStatus = gADMIN_ACTION_SHUTINGDOWN) :
    Server.Shutdown p env = (some .shuttingDown, p) := by
  unfold Server.Shutdown checkActionStatus
  simp [h, gADMIN_ACTION_SHUTINGDOWN, gADMIN_ACTION_RESTARTING]

theorem calls_of_shuttingDown (p : Process) (calls : List (AdminCall × Env))
    (h : p.serverProcessStatus = gADMIN_ACTION_SHUTINGDOWN) :
    Server.calls p calls = (calls.map (fun _ => some AdminError.shuttingDown), p) := by
  induction calls with
  | nil => rfl
  | cons c rest ih =>
    obtain ⟨call, env⟩ := c
    cases call
    · unfold Server.calls
      simp only [Restart_of_shuttingDown p env h, ih, List.map_cons]
    · unfold Server.calls
      simp only [Shutdown_of_shuttingDown p env h, ih, List.map_cons]

theorem Shutdown_ok_status (p q : Process) (env : Env)
    (h : Server.Shutdown p env = (none, q)) :
    q.serverProcessStatus = gADMIN_ACTION_SHUTINGDOWN := by
  unfold Server.Shutdown at h
  split at h
  · cases h
  · split at h
    · cases h
    · simp only [Prod.mk.injEq, true_and] at h
      rw [← h]
      rfl

/-- C17. Shutdown is terminal for admin actions: once `shutdownWebServers` has
run, the process status is shutting down, and every later sequence of
`Server.Restart` and `Server.Shutdown` calls returns the error `server is
shutting down` at each call and leaves the process variables as they were, so
that no restart or shutdown is set going; and when a `Server.Shutdown` call
succeeds, a `Server.Shutdown` call made right after it returns that error. -/
theorem shutdown_is_terminal (p : Process) (signal : String)
    (calls : List (AdminCall × Env)) (env env2 : Env) (q : Process)
    (hok : Server.Shutdown p env = (none, q)) :
    (shutdownWebServers p signal).serverProcessStatus = gADMIN_ACTION_SHUTINGDOWN ∧
    Server.calls (shutdownWebServers p signal) calls
      = (calls.map (fun _ => some AdminError.shuttingDown), shutdownWebServers p signal) ∧
    Server.Shutdown q env2 = (some .shuttingDown, q) ∧
    Server.calls q calls = (calls.map (fun _ => some AdminError.shuttingDown), q) :=
  ⟨rfl, calls_of_shuttingDown _ calls rfl,
    Shutdown_of_shuttingDown q env2 (Shutdown_ok_status p q env hok),
    calls_of_shuttingDown q calls (Shutdown_ok_status p q env hok)⟩

/-- Witness for C17: a process with no admin action under way, 5000 ms after the
recorded time; the shutdown succeeds and the calls after it are refused. -/
theorem shutdown_is_terminal_witness :
    (shutdownWebServers ⟨0, 0, []⟩ "").serverProcessStatus = gADMIN_ACTION_SHUTINGDOWN ∧
    Server.calls (shutdownWebServers ⟨0, 0, []⟩ "")
        [(.Restart, ⟨9000, 9001, false, none⟩), (.Shutdown, ⟨9500, 9501, false, none⟩)]
      = ([some .shuttingDown, some .shuttingDown], shutdownWebServers ⟨0, 0, []⟩ "") ∧
    Server.Shutdown ⟨5001, 2, [.shutdown false]⟩ ⟨9000, 9001, false, none⟩
      = (some .shuttingDown, ⟨5001, 2, [.shutdown false]⟩) ∧
    Server.calls ⟨5001, 2, [.shutdown false]⟩
        [(.Restart, ⟨9000, 9001, false, none⟩), (.Shutdown, ⟨9500, 9501, false, none⟩)]
      = ([some .shuttingDown, some .shuttingDown], ⟨5001, 2, [.shutdown false]⟩) :=
  shutdown_is_terminal ⟨0, 0, []⟩ ""
    [(.Restart, ⟨9000, 9001, false, none⟩), (.Shutdown, ⟨9500, 9501, false, none⟩)]
    ⟨5000, 5001, false, none⟩ ⟨9000, 9001, false, none⟩ ⟨5001, 2, [.shutdown false]⟩
    (by decide)

end ghttp
